import Mathlib

/-!
Shallow embedding of the Shopify store-migration edge function
(supabase function handling products / collections / pages / blogs /
metaobjects / metafields migration between two stores).

The file contains two generations of the products branch, matching the two
handler versions present in the source file: the current one and the older
one that conditionally skips the target fetch.

Records fetched from the remote REST API are dynamic JSON objects; they are
embedded as association lists of string keys to a JSON-like value type.
Remote calls are embedded as explicit inputs (fetch results as values of
Except, write outcomes as oracle functions), and every attempted write is
recorded in a trace so that statements about issued writes can be made.
-/

/-- JSON-ish runtime values as the JS code sees them.  The undefined
constructor models the result of reading an absent property.  Arrays and
objects compare by reference in JS; two separately-built values are never
strictly equal, which primEq reflects by returning false on them. -/
inductive JVal where
  | undefined
  | null
  | bool (b : Bool)
  | num (n : Int)
  | str (s : String)
  | arr (elems : List JVal)
  | obj (fields : List (String × JVal))

/-- A JSON object: ordered key/value fields, as the JS spread and
destructuring operators see it. -/
abbrev JObj := List (String × JVal)

/-- JS strict equality on primitive values; distinct array/object
literals are unequal (reference comparison). -/
def primEq : JVal → JVal → Bool
  | .undefined, .undefined => true
  | .null, .null => true
  | .bool a, .bool b => a == b
  | .num a, .num b => a == b
  | .str a, .str b => a == b
  | _, _ => false

/-- JS truthiness of a value. -/
def jtruthy : JVal → Bool
  | .undefined => false
  | .null => false
  | .bool b => b
  | .num n => n != 0
  | .str s => s != ""
  | .arr _ => true
  | .obj _ => true

/-- JS string conversion as used in template literals and String(x).
Arrays and nested objects are not converted anywhere in the migration
code paths modelled here. -/
def jstr : JVal → String
  | .undefined => "undefined"
  | .null => "null"
  | .bool b => if b then "true" else "false"
  | .num n => toString n
  | .str s => s
  | .arr _ => ""
  | .obj _ => "[object Object]"

/-- Property read on an object: x.k, yielding undefined when absent. -/
def jsGet (r : JObj) (k : String) : JVal :=
  match r.find? (fun kv => kv.1 == k) with
  | some kv => kv.2
  | none => .undefined

/-- Optional-chaining property read x?.k on an arbitrary value. -/
def jget : JVal → String → JVal
  | .obj f, k => jsGet f k
  | _, _ => .undefined

/-- Rest destructuring: const \x7b a, b, ...rest \x7d = r drops the
listed keys and keeps everything else in order. -/
def removeKeys (ks : List String) (r : JObj) : JObj :=
  r.filter (fun kv => !ks.contains kv.1)

/-- In-place property assignment r.k = v for a key already present. -/
def setKey (r : JObj) (k : String) (v : JVal) : JObj :=
  r.map (fun kv => if kv.1 == k then (kv.1, v) else kv)

/-- Object spread with one extra property: \x7b ...r, k: v \x7d
(replaces the key in place when present, appends otherwise). -/
def setField (r : JObj) (k : String) (v : JVal) : JObj :=
  if (r.find? (fun kv => kv.1 == k)).isSome then setKey r k v else r ++ [(k, v)]

/-- The keys of an object, in order. -/
def keysOf (r : JObj) : List String := r.map Prod.fst

/-- JS a || b on strings, where the empty string is falsy (this also
covers an absent field read back as undefined, which is modelled as ""). -/
def jsOr (a b : String) : String := if a = "" then b else a

-- --- Cleaning helpers (translated from cleanProduct etc.) ---

/-- Variant cleaning inside cleanProduct: drops variant-local identity
fields.  Non-object entries are passed through; the source would throw on
them, but variants are always JSON objects in the data shapes handled. -/
def cleanVariant (v : JVal) : JVal :=
  match v with
  | .obj f => .obj (removeKeys
      ["id", "product_id", "admin_graphql_api_id", "created_at", "updated_at",
       "inventory_item_id", "image_id"] f)
  | x => x

/-- Image reduced to src/alt/position, as in the images map of
cleanProduct. -/
def cleanImageFull (img : JVal) : JVal :=
  .obj [("src", jget img "src"), ("alt", jget img "alt"), ("position", jget img "position")]

/-- Image reduced to src/alt, as for the singular image field. -/
def cleanImageSm (img : JVal) : JVal :=
  .obj [("src", jget img "src"), ("alt", jget img "alt")]

/-- cleanProduct: strips id, admin_graphql_api_id, created_at,
updated_at, published_at; cleans nested variants and images. -/
def cleanProduct (p : JObj) : JObj :=
  let rest := removeKeys
    ["id", "admin_graphql_api_id", "created_at", "updated_at", "published_at"] p
  let rest1 := match jsGet rest "variants" with
    | .arr vs => setKey rest "variants" (.arr (vs.map cleanVariant))
    | _ => rest
  let rest2 := match jsGet rest1 "images" with
    | .arr imgs => setKey rest1 "images" (.arr (imgs.map cleanImageFull))
    | _ => rest1
  if jtruthy (jsGet rest2 "image") then
    setKey rest2 "image" (cleanImageSm (jsGet rest2 "image"))
  else rest2

/-- cleanCollection: strips id, admin_graphql_api_id, created_at,
updated_at, published_at and the key "type"; reduces the image field. -/
def cleanCollection (c : JObj) : JObj :=
  let rest := removeKeys
    ["id", "admin_graphql_api_id", "created_at", "updated_at", "published_at", "type"] c
  if jtruthy (jsGet rest "image") then
    setKey rest "image" (cleanImageSm (jsGet rest "image"))
  else rest

/-- cleanPage: strips id, admin_graphql_api_id, created_at, updated_at,
published_at and shop_id. -/
def cleanPage (p : JObj) : JObj :=
  removeKeys
    ["id", "admin_graphql_api_id", "created_at", "updated_at", "published_at", "shop_id"] p

/-- cleanArticle: strips id, admin_graphql_api_id, created_at,
updated_at, blog_id and user_id; reduces the image field.  Note the
source does not list published_at here. -/
def cleanArticle (a : JObj) : JObj :=
  let rest := removeKeys
    ["id", "admin_graphql_api_id", "created_at", "updated_at", "blog_id", "user_id"] a
  if jtruthy (jsGet rest "image") then
    setKey rest "image" (cleanImageSm (jsGet rest "image"))
  else rest

-- --- Results and summary ---

/-- Per-item result status. -/
inductive Status where
  | created
  | updated
  | skipped
  | error
deriving DecidableEq

/-- Per-item migration result, as pushed onto the results list.  The
title is whatever runtime value the code assigns (a raw field for
products/collections/pages/blogs, a built string elsewhere). -/
structure Result where
  id : String
  title : JVal
  status : Status
  message : Option String

/-- Aggregate counts returned next to the results list. -/
structure Summary where
  total : Nat
  created : Nat
  updated : Nat
  skipped : Nat
  errors : Nat

/-- The summary object built at the end of the handler: length of the
results list and one filtered count per status. -/
def summaryOf (results : List Result) : Summary :=
  { total := results.length
    created := (results.filter (fun r => r.status == Status.created)).length
    updated := (results.filter (fun r => r.status == Status.updated)).length
    skipped := (results.filter (fun r => r.status == Status.skipped)).length
    errors := (results.filter (fun r => r.status == Status.error)).length }

/-- Concatenate per-item (results, writes) pairs in processing order. -/
def accPairs {α β : Type} (l : List (List α × List β)) : List α × List β :=
  l.foldr (fun p acc => (p.1 ++ acc.1, p.2 ++ acc.2)) ([], [])

/-- Interpret a caught best-effort fetch: the list on success, empty on
failure. -/
def exceptD {α : Type} (e : Except String (List α)) : List α :=
  match e with
  | .ok l => l
  | .error _ => []

-- --- REST writes (products / collections / pages) ---

/-- A REST write against the target store: PUT or POST with endpoint and
JSON body. -/
inductive PWrite where
  | put (endpoint : String) (body : JVal)
  | post (endpoint : String) (body : JVal)

/-- Conflict mode of a migration request. -/
inductive ConflictMode where
  | overwrite
  | skip
  | ask
deriving DecidableEq

-- --- Products branch (current handler) ---

/-- One iteration of the products loop in the current handler: find by
handle, skip-check, dry-run check, then update/create; a throwing write
is caught and recorded as an error result.  The write oracle returns
none on success and the exception message on a throw. -/
def processProduct (conflictMode : ConflictMode) (dryRun : Bool)
    (targetProducts : List JObj) (env : PWrite → Option String)
    (product : JObj) : List Result × List PWrite :=
  let idStr := jstr (jsGet product "id")
  let title := if jtruthy (jsGet product "title") then jsGet product "title" else .str idStr
  let existing := targetProducts.find? (fun tp => primEq (jsGet tp "handle") (jsGet product "handle"))
  match existing with
  | some ex =>
    if conflictMode = ConflictMode.skip then
      ([⟨idStr, title, .skipped, some "Bereits vorhanden"⟩], [])
    else if dryRun then
      ([⟨idStr, title, .updated, some "Testlauf"⟩], [])
    else if conflictMode = ConflictMode.overwrite then
      let w := PWrite.put ("/admin/api/2024-01/products/" ++ jstr (jsGet ex "id") ++ ".json")
        (.obj [("product", .obj (cleanProduct product))])
      match env w with
      | none => ([⟨idStr, title, .updated, none⟩], [w])
      | some m => ([⟨idStr, title, .error, some m⟩], [w])
    else
      ([], [])
  | none =>
    if dryRun then
      ([⟨idStr, title, .created, some "Testlauf"⟩], [])
    else
      let w := PWrite.post "/admin/api/2024-01/products.json"
        (.obj [("product", .obj (cleanProduct product))])
      match env w with
      | none => ([⟨idStr, title, .created, none⟩], [w])
      | some m => ([⟨idStr, title, .error, some m⟩], [w])

/-- The products loop of the current handler over the selected items. -/
def migrateProducts (conflictMode : ConflictMode) (dryRun : Bool)
    (selected : List JObj) (targetProducts : List JObj)
    (env : PWrite → Option String) : List Result × List PWrite :=
  accPairs (selected.map (processProduct conflictMode dryRun targetProducts env))

/-- The products branch of the current handler: filter the source fetch
by the requested ids, degrade the target fetch to empty on failure, then
run the loop. -/
def productsBranch (itemIds : List String) (conflictMode : ConflictMode) (dryRun : Bool)
    (srcProducts : List JObj) (tgtFetch : Except String (List JObj))
    (env : PWrite → Option String) : List Result × List PWrite :=
  let selected := srcProducts.filter (fun p => itemIds.contains (jstr (jsGet p "id")))
  let targetProducts := exceptD tgtFetch
  migrateProducts conflictMode dryRun selected targetProducts env

-- --- Products branch (older handler, same file, second serve call) ---

/-- One iteration of the products loop in the older handler.  Identical
to the current one except for the dry-run message text. -/
def processProductOld (conflictMode : ConflictMode) (dryRun : Bool)
    (targetProducts : List JObj) (env : PWrite → Option String)
    (product : JObj) : List Result × List PWrite :=
  let idStr := jstr (jsGet product "id")
  let title := if jtruthy (jsGet product "title") then jsGet product "title" else .str idStr
  let existing := targetProducts.find? (fun tp => primEq (jsGet tp "handle") (jsGet product "handle"))
  match existing with
  | some ex =>
    if conflictMode = ConflictMode.skip then
      ([⟨idStr, title, .skipped, some "Bereits vorhanden"⟩], [])
    else if dryRun then
      ([⟨idStr, title, .updated, some "Testlauf — keine Änderung"⟩], [])
    else if conflictMode = ConflictMode.overwrite then
      let w := PWrite.put ("/admin/api/2024-01/products/" ++ jstr (jsGet ex "id") ++ ".json")
        (.obj [("product", .obj (cleanProduct product))])
      match env w with
      | none => ([⟨idStr, title, .updated, none⟩], [w])
      | some m => ([⟨idStr, title, .error, some m⟩], [w])
    else
      ([], [])
  | none =>
    if dryRun then
      ([⟨idStr, title, .created, some "Testlauf — keine Änderung"⟩], [])
    else
      let w := PWrite.post "/admin/api/2024-01/products.json"
        (.obj [("product", .obj (cleanProduct product))])
      match env w with
      | none => ([⟨idStr, title, .created, none⟩], [w])
      | some m => ([⟨idStr, title, .error, some m⟩], [w])

/-- The products loop of the older handler. -/
def migrateProductsOld (conflictMode : ConflictMode) (dryRun : Bool)
    (selected : List JObj) (targetProducts : List JObj)
    (env : PWrite → Option String) : List Result × List PWrite :=
  accPairs (selected.map (processProductOld conflictMode dryRun targetProducts env))

/-- The products branch of the older handler.  Its target fetch is
guarded: it is only performed when conflictMode is not overwrite or the
call is not a dry run; otherwise the target set stays empty. -/
def productsBranchOld (itemIds : List String) (conflictMode : ConflictMode) (dryRun : Bool)
    (srcProducts : List JObj) (tgtFetch : Except String (List JObj))
    (env : PWrite → Option String) : List Result × List PWrite :=
  let selected := srcProducts.filter (fun p => itemIds.contains (jstr (jsGet p "id")))
  let targetProducts :=
    if conflictMode ≠ ConflictMode.overwrite ∨ dryRun = false then exceptD tgtFetch else []
  migrateProductsOld conflictMode dryRun selected targetProducts env

-- --- Collections branch ---

/-- One iteration of the collections loop: match by handle against the
merged custom+smart target set, then route the write by the _type tag. -/
def processCollection (conflictMode : ConflictMode) (dryRun : Bool)
    (allTarget : List JObj) (env : PWrite → Option String)
    (col : JObj) : List Result × List PWrite :=
  let idStr := jstr (jsGet col "id")
  let title := if jtruthy (jsGet col "title") then jsGet col "title" else .str idStr
  let colType := jsGet col "_type"
  let existing := allTarget.find? (fun tc => primEq (jsGet tc "handle") (jsGet col "handle"))
  let endpoint := if primEq colType (.str "smart") then "smart_collections" else "custom_collections"
  let wrapper := if primEq colType (.str "smart") then "smart_collection" else "custom_collection"
  match existing with
  | some ex =>
    if conflictMode = ConflictMode.skip then
      ([⟨idStr, title, .skipped, some "Bereits vorhanden"⟩], [])
    else if dryRun then
      ([⟨idStr, title, .updated, some "Testlauf"⟩], [])
    else if conflictMode = ConflictMode.overwrite then
      let w := PWrite.put ("/admin/api/2024-01/" ++ endpoint ++ "/" ++ jstr (jsGet ex "id") ++ ".json")
        (.obj [(wrapper, .obj (cleanCollection col))])
      match env w with
      | none => ([⟨idStr, title, .updated, none⟩], [w])
      | some m => ([⟨idStr, title, .error, some m⟩], [w])
    else
      ([], [])
  | none =>
    if dryRun then
      ([⟨idStr, title, .created, some "Testlauf"⟩], [])
    else
      let w := PWrite.post ("/admin/api/2024-01/" ++ endpoint ++ ".json")
        (.obj [(wrapper, .obj (cleanCollection col))])
      match env w with
      | none => ([⟨idStr, title, .created, none⟩], [w])
      | some m => ([⟨idStr, title, .error, some m⟩], [w])

/-- The collections branch: tag each source collection with its sub-type,
filter by the requested ids, merge the two best-effort target fetches and
run the loop. -/
def collectionsBranch (itemIds : List String) (conflictMode : ConflictMode) (dryRun : Bool)
    (customSrc smartSrc : List JObj)
    (tgtCustomFetch tgtSmartFetch : Except String (List JObj))
    (env : PWrite → Option String) : List Result × List PWrite :=
  let allCollections :=
    customSrc.map (fun c => setField c "_type" (.str "custom")) ++
    smartSrc.map (fun c => setField c "_type" (.str "smart"))
  let selected := allCollections.filter (fun c => itemIds.contains (jstr (jsGet c "id")))
  let allTarget := exceptD tgtCustomFetch ++ exceptD tgtSmartFetch
  accPairs (selected.map (processCollection conflictMode dryRun allTarget env))

-- --- Pages branch ---

/-- One iteration of the pages loop. -/
def processPage (conflictMode : ConflictMode) (dryRun : Bool)
    (targetPages : List JObj) (env : PWrite → Option String)
    (page : JObj) : List Result × List PWrite :=
  let idStr := jstr (jsGet page "id")
  let title := if jtruthy (jsGet page "title") then jsGet page "title" else .str idStr
  let existing := targetPages.find? (fun tp => primEq (jsGet tp "handle") (jsGet page "handle"))
  match existing with
  | some ex =>
    if conflictMode = ConflictMode.skip then
      ([⟨idStr, title, .skipped, some "Bereits vorhanden"⟩], [])
    else if dryRun then
      ([⟨idStr, title, .updated, some "Testlauf"⟩], [])
    else if conflictMode = ConflictMode.overwrite then
      let w := PWrite.put ("/admin/api/2024-01/pages/" ++ jstr (jsGet ex "id") ++ ".json")
        (.obj [("page", .obj (cleanPage page))])
      match env w with
      | none => ([⟨idStr, title, .updated, none⟩], [w])
      | some m => ([⟨idStr, title, .error, some m⟩], [w])
    else
      ([], [])
  | none =>
    if dryRun then
      ([⟨idStr, title, .created, some "Testlauf"⟩], [])
    else
      let w := PWrite.post "/admin/api/2024-01/pages.json"
        (.obj [("page", .obj (cleanPage page))])
      match env w with
      | none => ([⟨idStr, title, .created, none⟩], [w])
      | some m => ([⟨idStr, title, .error, some m⟩], [w])

/-- The pages branch. -/
def pagesBranch (itemIds : List String) (conflictMode : ConflictMode) (dryRun : Bool)
    (srcPages : List JObj) (tgtFetch : Except String (List JObj))
    (env : PWrite → Option String) : List Result × List PWrite :=
  let selected := srcPages.filter (fun p => itemIds.contains (jstr (jsGet p "id")))
  let targetPages := exceptD tgtFetch
  accPairs (selected.map (processPage conflictMode dryRun targetPages env))

-- --- Blogs branch ---

/-- A write against the target in the blogs branch: the blog POST or an
article POST under a resolved target blog id. -/
inductive BWrite where
  | postBlog (body : JVal)
  | postArticle (targetBlogId : String) (body : JVal)

/-- The remote collaborators consumed by the blogs branch: blog creation
(returning the parsed response or a thrown message), the per-blog source
article fetch, and the article POST outcome. -/
structure BlogEnv where
  createBlog : JVal → Except String JVal
  articlesOf : String → Except String (List JObj)
  postArticle : String → JVal → Option String

/-- One article migration: clean, POST to the target blog, push created
or the caught error. -/
def articleStep (env : BlogEnv) (targetBlogIdStr : String) (a : JObj) : Result × BWrite :=
  let payload := JVal.obj [("article", .obj (cleanArticle a))]
  let w := BWrite.postArticle targetBlogIdStr payload
  let title := JVal.str ("Artikel: " ++ jstr (jsGet a "title"))
  match env.postArticle targetBlogIdStr payload with
  | none => (⟨jstr (jsGet a "id"), title, .created, none⟩, w)
  | some m => (⟨jstr (jsGet a "id"), title, .error, some m⟩, w)

/-- The article phase after the owning blog is resolved: runs only when
the resolved target blog id is truthy; a throwing article fetch is caught
at blog level and appends one error result. -/
def blogArticlesPhase (idStr : String) (titleV : JVal) (env : BlogEnv)
    (targetBlogId : JVal) (blogResults : List Result) (blogWrites : List BWrite) :
    List Result × List BWrite :=
  if jtruthy targetBlogId then
    match env.articlesOf idStr with
    | .error m => (blogResults ++ [⟨idStr, titleV, .error, some m⟩], blogWrites)
    | .ok arts =>
      (blogResults ++ arts.map (fun a => (articleStep env (jstr targetBlogId) a).1),
       blogWrites ++ arts.map (fun a => (articleStep env (jstr targetBlogId) a).2))
  else (blogResults, blogWrites)

/-- One iteration of the blogs loop: dry-run prediction first, then the
skip check, then create-or-match of the blog followed by the article
phase. -/
def processBlog (conflictMode : ConflictMode) (dryRun : Bool)
    (targetBlogs : List JObj) (env : BlogEnv)
    (blog : JObj) : List Result × List BWrite :=
  let idStr := jstr (jsGet blog "id")
  let titleV := if jtruthy (jsGet blog "title") then jsGet blog "title" else .str idStr
  let existingBlog := targetBlogs.find? (fun tb => primEq (jsGet tb "handle") (jsGet blog "handle"))
  if dryRun then
    ([⟨idStr, titleV, if existingBlog.isSome then .updated else .created, some "Testlauf"⟩], [])
  else
    match existingBlog with
    | some tb =>
      if conflictMode = ConflictMode.skip then
        ([⟨idStr, titleV, .skipped, some "Bereits vorhanden"⟩], [])
      else
        blogArticlesPhase idStr titleV env (jsGet tb "id") [⟨idStr, titleV, .updated, none⟩] []
    | none =>
      let payload := JVal.obj [("blog", .obj
        [("title", jsGet blog "title"), ("handle", jsGet blog "handle"),
         ("commentable", jsGet blog "commentable")])]
      let w := BWrite.postBlog payload
      match env.createBlog payload with
      | .error m => ([⟨idStr, titleV, .error, some m⟩], [w])
      | .ok res =>
        blogArticlesPhase idStr titleV env (jget (jget res "blog") "id")
          [⟨idStr, titleV, .created, none⟩] [w]

/-- The blogs branch. -/
def blogsBranch (itemIds : List String) (conflictMode : ConflictMode) (dryRun : Bool)
    (srcBlogs : List JObj) (tgtFetch : Except String (List JObj))
    (env : BlogEnv) : List Result × List BWrite :=
  let selected := srcBlogs.filter (fun b => itemIds.contains (jstr (jsGet b "id")))
  let targetBlogs := exceptD tgtFetch
  accPairs (selected.map (processBlog conflictMode dryRun targetBlogs env))

-- --- Metaobjects migration ---

/-- A validation entry of a metaobject field definition. -/
structure Validation where
  name : String
  value : String

/-- A metaobject field definition as fetched from the source (the
GraphQL description may be null, modelled as the falsy empty string). -/
structure FieldDef where
  key : String
  name : String
  typeName : String
  required : Bool
  description : String
  validations : List Validation

/-- A metaobject type definition. -/
structure MDef where
  id : String
  name : String
  type : String
  fieldDefinitions : List FieldDef

/-- A field of a metaobject entry; a null GraphQL value is none. -/
structure MField where
  key : String
  value : Option String
  ftype : String

/-- A metaobject entry. -/
structure MEntry where
  id : String
  handle : String
  type : String
  fields : List MField

/-- A field definition as sent in the create-definition mutation:
description and validations are dropped when falsy/empty. -/
structure FieldDefPayload where
  key : String
  name : String
  ftype : String
  required : Bool
  description : Option String
  validations : Option (List Validation)

/-- Build one field definition payload from a fetched field definition. -/
def fieldDefPayload (f : FieldDef) : FieldDefPayload :=
  { key := f.key
    name := f.name
    ftype := f.typeName
    required := f.required
    description := if f.description = "" then none else some f.description
    validations := if f.validations.length > 0 then some f.validations else none }

/-- A GraphQL mutation against the target issued by the metaobjects
migration, with the data it carries. -/
inductive MWrite where
  | defCreate (defType defName : String) (fields : List FieldDefPayload) (access : String)
  | entryUpdate (defType : String) (targetId : String) (fields : List (String × String))
  | entryCreate (defType : String) (handle : String) (fields : List (String × String))

/-- Outcome of a GraphQL mutation: parsed userErrors (possibly empty) or
a thrown transport/GraphQL error. -/
inductive GqlRes where
  | ok (userErrors : List String)
  | thrown (msg : String)

/-- The title prefix used for definition results. -/
def defTitle (d : MDef) : JVal := .str ("Definition: " ++ d.name)

/-- One entry of the metaobject entry loop: match by handle within the
target entries of the type, skip-check, dry-run check, then drop
empty/null field values and update or create. -/
def processEntry (d : MDef) (conflictMode : ConflictMode) (dryRun : Bool)
    (tgtEntries : List MEntry) (menv : MWrite → GqlRes)
    (entry : MEntry) : List Result × List MWrite :=
  let entryTitle := if entry.handle != "" then entry.handle else entry.id
  let title := JVal.str (d.name ++ ": " ++ entryTitle)
  let existing := tgtEntries.find? (fun te => te.handle == entry.handle)
  match existing with
  | some ex =>
    if conflictMode = ConflictMode.skip then
      ([⟨entry.id, title, .skipped, some "Bereits vorhanden"⟩], [])
    else if dryRun then
      ([⟨entry.id, title, .updated, some "Testlauf"⟩], [])
    else
      let fields := (entry.fields.filter (fun f =>
        match f.value with
        | some s => s != ""
        | none => false)).map (fun f => (f.key, f.value.getD ""))
      if conflictMode = ConflictMode.overwrite then
        let w := MWrite.entryUpdate d.type ex.id fields
        match menv w with
        | .thrown m => ([⟨entry.id, title, .error, some m⟩], [w])
        | .ok ue =>
          if ue.length > 0 then
            ([⟨entry.id, title, .error, some (String.intercalate ", " ue)⟩], [w])
          else
            ([⟨entry.id, title, .updated, none⟩], [w])
      else
        ([], [])
  | none =>
    if dryRun then
      ([⟨entry.id, title, .created, some "Testlauf"⟩], [])
    else
      let fields := (entry.fields.filter (fun f =>
        match f.value with
        | some s => s != ""
        | none => false)).map (fun f => (f.key, f.value.getD ""))
      let w := MWrite.entryCreate d.type entry.handle fields
      match menv w with
      | .thrown m => ([⟨entry.id, title, .error, some m⟩], [w])
      | .ok ue =>
        if ue.length > 0 then
          ([⟨entry.id, title, .error, some (String.intercalate ", " ue)⟩], [w])
        else
          ([⟨entry.id, title, .created, none⟩], [w])

/-- Processing of one selected definition: find the target definition by
type, create it when missing (recording error and stopping the entry
phase on userErrors or a throw), then migrate all source entries of the
type against the target entries of the type. -/
def processDef (tgtDefs : List MDef) (conflictMode : ConflictMode) (dryRun : Bool)
    (srcEntriesOf tgtEntriesOf : String → List MEntry) (menv : MWrite → GqlRes)
    (d : MDef) : List Result × List MWrite :=
  let existingDef := tgtDefs.find? (fun td => td.type == d.type)
  let entryPhase := accPairs
    ((srcEntriesOf d.type).map (processEntry d conflictMode dryRun (tgtEntriesOf d.type) menv))
  match existingDef with
  | some _ =>
    (⟨d.id, defTitle d, .skipped, some "Bereits vorhanden"⟩ :: entryPhase.1, entryPhase.2)
  | none =>
    if dryRun then
      (⟨d.id, defTitle d, .created, some "Testlauf"⟩ :: entryPhase.1, entryPhase.2)
    else
      let w := MWrite.defCreate d.type d.name (d.fieldDefinitions.map fieldDefPayload) "PUBLIC_READ"
      match menv w with
      | .thrown m => ([⟨d.id, defTitle d, .error, some m⟩], [w])
      | .ok ue =>
        if ue.length > 0 then
          ([⟨d.id, defTitle d, .error, some (String.intercalate ", " ue)⟩], [w])
        else
          (⟨d.id, defTitle d, .created, none⟩ :: entryPhase.1, w :: entryPhase.2)

/-- migrateMetaobjects: select the requested definitions from the source
fetch and process them in order. -/
def migrateMetaobjects (allDefs : List MDef) (definitionIds : List String)
    (tgtDefs : List MDef) (conflictMode : ConflictMode) (dryRun : Bool)
    (srcEntriesOf tgtEntriesOf : String → List MEntry) (menv : MWrite → GqlRes) :
    List Result × List MWrite :=
  let selectedDefs := allDefs.filter (fun d => definitionIds.contains d.id)
  accPairs (selectedDefs.map (processDef tgtDefs conflictMode dryRun srcEntriesOf tgtEntriesOf menv))

-- --- Metafields migration ---

/-- A REST metafield (source or target); the id matters only on target
metafields, where it routes the update. -/
structure MF where
  mfId : JVal
  nspace : String
  key : String
  value : JVal
  mtype : JVal

/-- A metafield write against the target owner. -/
inductive MfWrite where
  | putMF (restResource targetItemId : String) (mfId value mtype : JVal)
  | postMF (restResource targetItemId : String) (nspace key : String) (value mtype : JVal)

/-- Owner-type table: REST resource and GraphQL owner type per owner
kind. -/
def ownerTypeMap : String → Option (String × String)
  | "products" => some ("products", "PRODUCT")
  | "collections" => some ("collections", "COLLECTION")
  | "pages" => some ("pages", "PAGE")
  | "blogs" => some ("blogs", "BLOG")
  | _ => none

/-- The source owner record resolved out of the single-resource GET
(falsy/absent string fields modelled as ""). -/
structure SrcRes where
  handle : String
  title : String
  name : String

/-- Per-field counters accumulated over one owner item. -/
structure MfCounts where
  created : Nat
  updated : Nat
  skipped : Nat
  errors : Nat

/-- The remote collaborators consumed by migrateMetafields. -/
structure MfEnv where
  srcMetafields : String → Except String (List MF)
  srcItem : String → Except String (Option SrcRes)
  tgtByHandle : String → Except String (List JObj)
  tgtAll : Except String (List JObj)
  tgtMetafields : String → Except String (List MF)
  write : MfWrite → Option String

/-- One source metafield against the resolved target owner: skip when
matched under skip mode, update when matched under overwrite, create when
unmatched; a throwing write only bumps the error counter. -/
def mfStep (restResource targetItemId : String) (conflictMode : ConflictMode)
    (tgtMf : List MF) (wenv : MfWrite → Option String) (mf : MF) :
    MfCounts × List MfWrite :=
  let existingMf := tgtMf.find? (fun t => t.nspace == mf.nspace && t.key == mf.key)
  match existingMf with
  | some ex =>
    if conflictMode = ConflictMode.skip then
      (⟨0, 0, 1, 0⟩, [])
    else if conflictMode = ConflictMode.overwrite then
      let w := MfWrite.putMF restResource targetItemId ex.mfId mf.value mf.mtype
      match wenv w with
      | none => (⟨0, 1, 0, 0⟩, [w])
      | some _ => (⟨0, 0, 0, 1⟩, [w])
    else
      (⟨0, 0, 0, 0⟩, [])
  | none =>
    let w := MfWrite.postMF restResource targetItemId mf.nspace mf.key mf.value mf.mtype
    match wenv w with
    | none => (⟨1, 0, 0, 0⟩, [w])
    | some _ => (⟨0, 0, 0, 1⟩, [w])

/-- The per-field loop over one owner item's source metafields. -/
def mfLoop (restResource targetItemId : String) (conflictMode : ConflictMode)
    (tgtMf : List MF) (wenv : MfWrite → Option String) (metafields : List MF) :
    MfCounts × List MfWrite :=
  metafields.foldl (fun acc mf =>
    let st := mfStep restResource targetItemId conflictMode tgtMf wenv mf
    (⟨acc.1.created + st.1.created, acc.1.updated + st.1.updated,
      acc.1.skipped + st.1.skipped, acc.1.errors + st.1.errors⟩, acc.2 ++ st.2))
    (⟨0, 0, 0, 0⟩, [])

/-- One owner item of migrateMetafields: source metafields fetch, empty
check, source handle resolution, target owner resolution (filtered query
with a full-fetch fallback on throw), dry-run check, then the per-field
loop summarised into one aggregated result.  Uncaught throws map to the
outer per-item catch. -/
def processMfItem (ownerType restResource : String) (conflictMode : ConflictMode)
    (dryRun : Bool) (env : MfEnv) (itemId : String) : List Result × List MfWrite :=
  match env.srcMetafields itemId with
  | .error m => ([⟨itemId, .str ("Metafelder (#" ++ itemId ++ ")"), .error, some m⟩], [])
  | .ok metafields =>
    if metafields.length = 0 then
      ([⟨itemId, .str ("Metafelder (" ++ ownerType ++ " #" ++ itemId ++ ")"),
         .skipped, some "Keine Metafelder"⟩], [])
    else
      match env.srcItem itemId with
      | .error m => ([⟨itemId, .str ("Metafelder (#" ++ itemId ++ ")"), .error, some m⟩], [])
      | .ok srcResource =>
        let handle := match srcResource with
          | some r => r.handle
          | none => ""
        let srcTitle := jsOr (match srcResource with | some r => r.title | none => "")
          (jsOr (match srcResource with | some r => r.name | none => "")
            (jsOr handle itemId))
        if handle = "" then
          ([⟨itemId, .str ("Metafelder (" ++ srcTitle ++ ")"),
             .error, some "Kein Handle gefunden"⟩], [])
        else
          let resolved : Except String (Option String) :=
            match env.tgtByHandle handle with
            | .ok arr => .ok (arr.head?.map (fun t => jstr (jsGet t "id")))
            | .error _ =>
              match env.tgtAll with
              | .ok arr2 =>
                .ok ((arr2.find? (fun t => primEq (jsGet t "handle") (.str handle))).map
                  (fun t => jstr (jsGet t "id")))
              | .error m => .error m
          match resolved with
          | .error m => ([⟨itemId, .str ("Metafelder (#" ++ itemId ++ ")"), .error, some m⟩], [])
          | .ok none =>
            ([⟨itemId, .str ("Metafelder (" ++ srcTitle ++ ")"),
               .error, some "Ziel-Ressource nicht gefunden"⟩], [])
          | .ok (some targetItemId) =>
            if dryRun then
              ([⟨itemId, .str ("Metafelder (" ++ srcTitle ++ ")"), .created,
                 some ("Testlauf — " ++ toString metafields.length ++ " Metafelder")⟩], [])
            else
              let tgtMf := match env.tgtMetafields targetItemId with
                | .ok l => l
                | .error _ => []
              let res := mfLoop restResource targetItemId conflictMode tgtMf env.write metafields
              let statusMsg := toString res.1.created ++ " erstellt, " ++
                toString res.1.updated ++ " aktualisiert, " ++
                toString res.1.skipped ++ " übersprungen, " ++
                toString res.1.errors ++ " Fehler"
              ([⟨itemId, .str ("Metafelder (" ++ srcTitle ++ ")"),
                 if res.1.errors > 0 then .error else .created, some statusMsg⟩], res.2)

/-- migrateMetafields: owner-type lookup, then one aggregated result per
requested item. -/
def migrateMetafields (ownerType : String) (itemIds : List String)
    (conflictMode : ConflictMode) (dryRun : Bool) (env : MfEnv) :
    List Result × List MfWrite :=
  match ownerTypeMap ownerType with
  | none => ([⟨"0", .str "Metafelder", .error, some ("Unbekannter Typ: " ++ ownerType)⟩], [])
  | some cfg =>
    accPairs (itemIds.map (processMfItem ownerType cfg.1 conflictMode dryRun env))

-- --- General lemmas about the accumulation scheme ---

theorem accPairs_nil {α β : Type} : accPairs ([] : List (List α × List β)) = ([], []) := rfl

theorem accPairs_cons {α β : Type} (p : List α × List β) (l : List (List α × List β)) :
    accPairs (p :: l) = (p.1 ++ (accPairs l).1, p.2 ++ (accPairs l).2) := rfl

theorem accPairs_snd_nil {α β γ : Type} (f : γ → List α × List β) (l : List γ)
    (h : ∀ x ∈ l, (f x).2 = []) : (accPairs (l.map f)).2 = [] := by
  induction l with
  | nil => rfl
  | cons x t ih =>
    simp only [List.map_cons, accPairs_cons]
    rw [h x (by simp), ih (fun y hy => h y (by simp [hy]))]
    rfl

theorem accPairs_fst_length {α β γ : Type} (f : γ → List α × List β) (l : List γ)
    (h : ∀ x ∈ l, (f x).1.length = 1) : (accPairs (l.map f)).1.length = l.length := by
  induction l with
  | nil => rfl
  | cons x t ih =>
    simp only [List.map_cons, accPairs_cons, List.length_append, List.length_cons]
    rw [h x (by simp), ih (fun y hy => h y (by simp [hy]))]
    omega

theorem accPairs_snd_mem {α β γ : Type} (f : γ → List α × List β) (l : List γ)
    (w : β) (hw : w ∈ (accPairs (l.map f)).2) : ∃ x ∈ l, w ∈ (f x).2 := by
  induction l with
  | nil => simp [accPairs] at hw
  | cons x t ih =>
    simp only [List.map_cons, accPairs_cons, List.mem_append] at hw
    rcases hw with hw | hw
    · exact ⟨x, by simp, hw⟩
    · rcases ih hw with ⟨y, hy, hyw⟩
      exact ⟨y, by simp [hy], hyw⟩

-- --- Counting lemmas for the summary ---

theorem filter_status_count (s : Status) (rs : List Result) :
    (rs.filter (fun r => r.status == s)).length = (rs.map Result.status).count s := by
  induction rs with
  | nil => rfl
  | cons r t ih =>
    by_cases h : r.status = s
    · subst h
      simp [List.filter_cons, List.count_cons, ih]
    · have hb : (r.status == s) = false := by simp [h]
      have hb2 : (s == r.status) = false := by
        simp only [beq_eq_false_iff_ne, ne_eq]
        exact fun hh => h hh.symm
      simp [List.filter_cons, List.count_cons, hb, hb2, ih]

theorem status_length_sum (rs : List Result) :
    rs.length =
      (rs.filter (fun r => r.status == Status.created)).length +
      (rs.filter (fun r => r.status == Status.updated)).length +
      (rs.filter (fun r => r.status == Status.skipped)).length +
      (rs.filter (fun r => r.status == Status.error)).length := by
  induction rs with
  | nil => rfl
  | cons r t ih =>
    cases hr : r.status <;> simp [List.filter_cons, hr, ih, beq_iff_eq] <;> omega

/-- C9: the summary returned with a results list is exactly the counts
over that list: total is its length, each per-status field counts the
results with that status, and consequently total equals
created + updated + skipped + errors. -/
theorem summary_matches_results (rs : List Result) :
    (summaryOf rs).total = rs.length ∧
    (summaryOf rs).created = (rs.map Result.status).count Status.created ∧
    (summaryOf rs).updated = (rs.map Result.status).count Status.updated ∧
    (summaryOf rs).skipped = (rs.map Result.status).count Status.skipped ∧
    (summaryOf rs).errors = (rs.map Result.status).count Status.error ∧
    (summaryOf rs).total =
      (summaryOf rs).created + (summaryOf rs).updated +
      (summaryOf rs).skipped + (summaryOf rs).errors := by
  refine ⟨rfl, filter_status_count _ rs, filter_status_count _ rs,
    filter_status_count _ rs, filter_status_count _ rs, ?_⟩
  exact status_length_sum rs

-- --- Dry-run write emptiness, per branch ---

theorem processProduct_dry_writes (conflictMode : ConflictMode) (tgt : List JObj)
    (env : PWrite → Option String) (p : JObj) :
    (processProduct conflictMode true tgt env p).2 = [] := by
  rcases h : tgt.find? (fun tp => primEq (jsGet tp "handle") (jsGet p "handle")) with _ | ex <;>
    cases conflictMode <;> simp [processProduct, h]

theorem processCollection_dry_writes (conflictMode : ConflictMode) (tgt : List JObj)
    (env : PWrite → Option String) (c : JObj) :
    (processCollection conflictMode true tgt env c).2 = [] := by
  rcases h : tgt.find? (fun tc => primEq (jsGet tc "handle") (jsGet c "handle")) with _ | ex <;>
    cases conflictMode <;> simp [processCollection, h]

theorem processPage_dry_writes (conflictMode : ConflictMode) (tgt : List JObj)
    (env : PWrite → Option String) (p : JObj) :
    (processPage conflictMode true tgt env p).2 = [] := by
  rcases h : tgt.find? (fun tp => primEq (jsGet tp "handle") (jsGet p "handle")) with _ | ex <;>
    cases conflictMode <;> simp [processPage, h]

theorem processBlog_dry_writes (conflictMode : ConflictMode) (tgt : List JObj)
    (env : BlogEnv) (b : JObj) :
    (processBlog conflictMode true tgt env b).2 = [] := by
  simp [processBlog]

theorem processEntry_dry_writes (d : MDef) (conflictMode : ConflictMode)
    (tgtEntries : List MEntry) (menv : MWrite → GqlRes) (e : MEntry) :
    (processEntry d conflictMode true tgtEntries menv e).2 = [] := by
  rcases h : tgtEntries.find? (fun te => te.handle == e.handle) with _ | ex <;>
    cases conflictMode <;> simp [processEntry, h]

theorem processDef_dry_writes (tgtDefs : List MDef) (conflictMode : ConflictMode)
    (srcEntriesOf tgtEntriesOf : String → List MEntry) (menv : MWrite → GqlRes) (d : MDef) :
    (processDef tgtDefs conflictMode true srcEntriesOf tgtEntriesOf menv d).2 = [] := by
  have hentries := accPairs_snd_nil
    (processEntry d conflictMode true (tgtEntriesOf d.type) menv) (srcEntriesOf d.type)
    (fun e _ => processEntry_dry_writes d conflictMode (tgtEntriesOf d.type) menv e)
  rcases h : tgtDefs.find? (fun td => td.type == d.type) with _ | ex <;>
    simp [processDef, h, hentries]

theorem processMfItem_dry_writes (ownerType restResource : String)
    (conflictMode : ConflictMode) (env : MfEnv) (itemId : String) :
    (processMfItem ownerType restResource conflictMode true env itemId).2 = [] := by
  unfold processMfItem
  dsimp only
  repeat' split <;> try rfl

theorem migrateMetafields_dry_writes (ownerType : String) (itemIds : List String)
    (conflictMode : ConflictMode) (env : MfEnv) :
    (migrateMetafields ownerType itemIds conflictMode true env).2 = [] := by
  unfold migrateMetafields
  rcases ownerTypeMap ownerType with _ | cfg
  · rfl
  · exact accPairs_snd_nil _ itemIds
      (fun i _ => processMfItem_dry_writes ownerType cfg.1 conflictMode env i)

/-- C3: a dry run issues zero writes: with dryRun set, every branch of
the handler (products, collections, pages, blogs, metaobjects and
metafields) produces an empty write trace for every input, every item
set and every conflict mode. -/
theorem dry_run_zero_writes :
    (∀ ids mode src tf env, (productsBranch ids mode true src tf env).2 = []) ∧
    (∀ ids mode cs ss tc ts env, (collectionsBranch ids mode true cs ss tc ts env).2 = []) ∧
    (∀ ids mode src tf env, (pagesBranch ids mode true src tf env).2 = []) ∧
    (∀ ids mode src tf env, (blogsBranch ids mode true src tf env).2 = []) ∧
    (∀ ad ids td mode se te menv, (migrateMetaobjects ad ids td mode true se te menv).2 = []) ∧
    (∀ ot ids mode env, (migrateMetafields ot ids mode true env).2 = []) := by
  refine ⟨?_, ?_, ?_, ?_, ?_, ?_⟩
  · intro ids mode src tf env
    exact accPairs_snd_nil _ _ (fun p _ => processProduct_dry_writes mode (exceptD tf) env p)
  · intro ids mode cs ss tc ts env
    exact accPairs_snd_nil _ _
      (fun c _ => processCollection_dry_writes mode (exceptD tc ++ exceptD ts) env c)
  · intro ids mode src tf env
    exact accPairs_snd_nil _ _ (fun p _ => processPage_dry_writes mode (exceptD tf) env p)
  · intro ids mode src tf env
    exact accPairs_snd_nil _ _ (fun b _ => processBlog_dry_writes mode (exceptD tf) env b)
  · intro ad ids td mode se te menv
    exact accPairs_snd_nil _ _ (fun d _ => processDef_dry_writes td mode se te menv d)
  · intro ot ids mode env
    exact migrateMetafields_dry_writes ot ids mode env

-- --- Concrete records for closed evaluations ---

/-- A concrete source product. -/
def prodMug : JObj := [("id", .num 1), ("handle", .str "mug"), ("title", .str "Mug")]

/-- A concrete target product with the same handle. -/
def tgtMug : JObj := [("id", .num 9), ("handle", .str "mug"), ("title", .str "Mug")]

/-- A write oracle on which every REST write succeeds. -/
def envOk : PWrite → Option String := fun _ => none

-- --- C2: dry-run prediction ---

/-- C2 counterexample: in a dry run with conflictMode skip, a matched
product is predicted skipped, because the skip check precedes the
dry-run check; the claim says a dry-run result is never skipped. -/
theorem dry_run_predicts_skipped_cex :
    (processProduct ConflictMode.skip true [tgtMug] envOk prodMug).1.map Result.status =
      [Status.skipped] := by
  rfl

/-- C2 (amended): a dry-run item causes no write; its predicted status
is created when unmatched, and when matched it is skipped under
conflictMode skip and updated under the other modes, in the products,
collections, pages and metaobject-entry loops; the blogs loop checks
dryRun first and so predicts updated for every matched blog under every
mode. -/
theorem dry_run_prediction :
    (∀ mode tgt env p,
      (processProduct mode true tgt env p).2 = [] ∧
      (processProduct mode true tgt env p).1.map Result.status =
        [if (tgt.find? (fun tp => primEq (jsGet tp "handle") (jsGet p "handle"))).isSome then
           (if mode = ConflictMode.skip then Status.skipped else Status.updated)
         else Status.created]) ∧
    (∀ mode tgt env c,
      (processCollection mode true tgt env c).2 = [] ∧
      (processCollection mode true tgt env c).1.map Result.status =
        [if (tgt.find? (fun tc => primEq (jsGet tc "handle") (jsGet c "handle"))).isSome then
           (if mode = ConflictMode.skip then Status.skipped else Status.updated)
         else Status.created]) ∧
    (∀ mode tgt env p,
      (processPage mode true tgt env p).2 = [] ∧
      (processPage mode true tgt env p).1.map Result.status =
        [if (tgt.find? (fun tp => primEq (jsGet tp "handle") (jsGet p "handle"))).isSome then
           (if mode = ConflictMode.skip then Status.skipped else Status.updated)
         else Status.created]) ∧
    (∀ d mode tgtEntries menv e,
      (processEntry d mode true tgtEntries menv e).2 = [] ∧
      (processEntry d mode true tgtEntries menv e).1.map Result.status =
        [if (tgtEntries.find? (fun te => te.handle == e.handle)).isSome then
           (if mode = ConflictMode.skip then Status.skipped else Status.updated)
         else Status.created]) ∧
    (∀ mode tgt env b,
      (processBlog mode true tgt env b).2 = [] ∧
      (processBlog mode true tgt env b).1.map Result.status =
        [if (tgt.find? (fun tb => primEq (jsGet tb "handle") (jsGet b "handle"))).isSome then
           Status.updated
         else Status.created]) := by
  refine ⟨?_, ?_, ?_, ?_, ?_⟩
  · intro mode tgt env p
    rcases hf : tgt.find? (fun tp => primEq (jsGet tp "handle") (jsGet p "handle")) with _ | ex <;>
      cases mode <;> simp [processProduct, hf]
  · intro mode tgt env c
    rcases hf : tgt.find? (fun tc => primEq (jsGet tc "handle") (jsGet c "handle")) with _ | ex <;>
      cases mode <;> simp [processCollection, hf]
  · intro mode tgt env p
    rcases hf : tgt.find? (fun tp => primEq (jsGet tp "handle") (jsGet p "handle")) with _ | ex <;>
      cases mode <;> simp [processPage, hf]
  · intro d mode tgtEntries menv e
    rcases hf : tgtEntries.find? (fun te => te.handle == e.handle) with _ | ex <;>
      cases mode <;> simp [processEntry, hf]
  · intro mode tgt env b
    rcases hf : tgt.find? (fun tb => primEq (jsGet tb "handle") (jsGet b "handle")) with _ | ex <;>
      simp [processBlog, hf]

-- --- C1: the ask conflict mode on a matched item ---

/-- C1 counterexample: a matched product under conflictMode ask in a
non-dry run yields no write and no result at all, rather than one update
write and an updated result. -/
theorem ask_existing_update_cex :
    (processProduct ConflictMode.ask false [tgtMug] envOk prodMug).1 = [] ∧
    (processProduct ConflictMode.ask false [tgtMug] envOk prodMug).2 = [] := by
  exact ⟨rfl, rfl⟩

/-- C1 (amended): for a non-dry-run item whose natural key already
exists on the target, conflictMode ask matches neither the overwrite nor
the create branch: the item is silently dropped, with no write and no
result, in the products, collections, pages and metaobject-entry loops;
in the metafield field loop the matched field is likewise neither
written nor counted. -/
theorem ask_existing_silently_dropped :
    (∀ tgt env p ex,
      tgt.find? (fun tp => primEq (jsGet tp "handle") (jsGet p "handle")) = some ex →
      processProduct ConflictMode.ask false tgt env p = ([], [])) ∧
    (∀ tgt env c ex,
      tgt.find? (fun tc => primEq (jsGet tc "handle") (jsGet c "handle")) = some ex →
      processCollection ConflictMode.ask false tgt env c = ([], [])) ∧
    (∀ tgt env p ex,
      tgt.find? (fun tp => primEq (jsGet tp "handle") (jsGet p "handle")) = some ex →
      processPage ConflictMode.ask false tgt env p = ([], [])) ∧
    (∀ d tgtEntries menv e ex,
      tgtEntries.find? (fun te => te.handle == e.handle) = some ex →
      processEntry d ConflictMode.ask false tgtEntries menv e = ([], [])) ∧
    (∀ rr tid tgtMf wenv mf ex,
      tgtMf.find? (fun t => t.nspace == mf.nspace && t.key == mf.key) = some ex →
      mfStep rr tid ConflictMode.ask tgtMf wenv mf = (⟨0, 0, 0, 0⟩, [])) := by
  refine ⟨?_, ?_, ?_, ?_, ?_⟩
  · intro tgt env p ex h
    simp [processProduct, h]
  · intro tgt env c ex h
    simp [processCollection, h]
  · intro tgt env p ex h
    simp [processPage, h]
  · intro d tgtEntries menv e ex h
    simp [processEntry, h]
  · intro rr tid tgtMf wenv mf ex h
    simp [mfStep, h]

/-- Closed instance of the amended C1 statement at a concrete matched
product. -/
theorem ask_existing_silently_dropped_witness :
    processProduct ConflictMode.ask false [tgtMug] envOk prodMug = ([], []) :=
  ask_existing_silently_dropped.1 [tgtMug] envOk prodMug tgtMug (by rfl)

-- --- C4: batch of N items yields N results ---

theorem processProduct_result_length (mode : ConflictMode) (dryRun : Bool)
    (tgt : List JObj) (env : PWrite → Option String) (p : JObj)
    (h : mode = ConflictMode.overwrite ∨ mode = ConflictMode.skip ∨ dryRun = true) :
    (processProduct mode dryRun tgt env p).1.length = 1 := by
  rcases hf : tgt.find? (fun tp => primEq (jsGet tp "handle") (jsGet p "handle")) with _ | ex
  · simp only [processProduct, hf]
    repeat' split
    all_goals simp_all
  · simp only [processProduct, hf]
    repeat' split
    all_goals simp_all

theorem processCollection_result_length (mode : ConflictMode) (dryRun : Bool)
    (tgt : List JObj) (env : PWrite → Option String) (c : JObj)
    (h : mode = ConflictMode.overwrite ∨ mode = ConflictMode.skip ∨ dryRun = true) :
    (processCollection mode dryRun tgt env c).1.length = 1 := by
  rcases hf : tgt.find? (fun tc => primEq (jsGet tc "handle") (jsGet c "handle")) with _ | ex
  · simp only [processCollection, hf]
    repeat' split
    all_goals simp_all
  · simp only [processCollection, hf]
    repeat' split
    all_goals simp_all

theorem processPage_result_length (mode : ConflictMode) (dryRun : Bool)
    (tgt : List JObj) (env : PWrite → Option String) (p : JObj)
    (h : mode = ConflictMode.overwrite ∨ mode = ConflictMode.skip ∨ dryRun = true) :
    (processPage mode dryRun tgt env p).1.length = 1 := by
  rcases hf : tgt.find? (fun tp => primEq (jsGet tp "handle") (jsGet p "handle")) with _ | ex
  · simp only [processPage, hf]
    repeat' split
    all_goals simp_all
  · simp only [processPage, hf]
    repeat' split
    all_goals simp_all

theorem processMfItem_result_length (ownerType restResource : String)
    (mode : ConflictMode) (dryRun : Bool) (env : MfEnv) (itemId : String) :
    (processMfItem ownerType restResource mode dryRun env itemId).1.length = 1 := by
  unfold processMfItem
  dsimp only
  repeat' split <;> try rfl

theorem accPairs_fst_map {α β γ δ : Type} (f : γ → List α × List β) (g : α → δ)
    (c : γ → δ) (l : List γ) (h : ∀ x ∈ l, (f x).1.map g = [c x]) :
    (accPairs (l.map f)).1.map g = l.map c := by
  induction l with
  | nil => rfl
  | cons x t ih =>
    simp only [List.map_cons, accPairs_cons, List.map_append]
    rw [h x (by simp), ih (fun y hy => h y (by simp [hy]))]
    rfl

theorem processProduct_fail_error (tgt : List JObj) (env : PWrite → Option String)
    (p : JObj) (m : String) (henv : ∀ w, env w = some m) :
    (processProduct ConflictMode.overwrite false tgt env p).1.map Result.status =
      [Status.error] := by
  rcases hf : tgt.find? (fun tp => primEq (jsGet tp "handle") (jsGet p "handle")) with _ | ex <;>
    simp [processProduct, hf, henv]

/-- C4 (amended): under conflictMode overwrite or skip — and in any dry
run — the products, collections and pages branches return exactly one
result per item selected from the source fetch, and the metafields
migration returns exactly one aggregated result per requested item under
every mode, all for arbitrary write outcomes including failures; a batch
of products on which every write throws still yields one result per
item, each with status error.  Outside this scope the original claim
fails: a matched item under ask in a non-dry run is silently dropped,
and the blogs (per-article results) and metaobjects (definition plus
entry results) branches return more results than items. -/
theorem batch_length_preserved :
    (∀ itemIds mode dryRun src tf env,
      mode = ConflictMode.overwrite ∨ mode = ConflictMode.skip ∨ dryRun = true →
      (productsBranch itemIds mode dryRun src tf env).1.length =
        (src.filter (fun p => itemIds.contains (jstr (jsGet p "id")))).length) ∧
    (∀ itemIds mode dryRun cs ss tc ts env,
      mode = ConflictMode.overwrite ∨ mode = ConflictMode.skip ∨ dryRun = true →
      (collectionsBranch itemIds mode dryRun cs ss tc ts env).1.length =
        ((cs.map (fun c => setField c "_type" (.str "custom")) ++
          ss.map (fun c => setField c "_type" (.str "smart"))).filter
            (fun c => itemIds.contains (jstr (jsGet c "id")))).length) ∧
    (∀ itemIds mode dryRun src tf env,
      mode = ConflictMode.overwrite ∨ mode = ConflictMode.skip ∨ dryRun = true →
      (pagesBranch itemIds mode dryRun src tf env).1.length =
        (src.filter (fun p => itemIds.contains (jstr (jsGet p "id")))).length) ∧
    (∀ ot cfg itemIds mode dryRun env, ownerTypeMap ot = some cfg →
      (migrateMetafields ot itemIds mode dryRun env).1.length = itemIds.length) ∧
    (∀ itemIds src tf env m, (∀ w, env w = some m) →
      (productsBranch itemIds ConflictMode.overwrite false src tf env).1.map Result.status =
        (src.filter (fun p => itemIds.contains (jstr (jsGet p "id")))).map
          (fun _ => Status.error)) := by
  refine ⟨?_, ?_, ?_, ?_, ?_⟩
  · intro itemIds mode dryRun src tf env h
    unfold productsBranch migrateProducts
    exact accPairs_fst_length _ _
      (fun p _ => processProduct_result_length mode dryRun (exceptD tf) env p h)
  · intro itemIds mode dryRun cs ss tc ts env h
    unfold collectionsBranch
    exact accPairs_fst_length _ _
      (fun c _ => processCollection_result_length mode dryRun
        (exceptD tc ++ exceptD ts) env c h)
  · intro itemIds mode dryRun src tf env h
    unfold pagesBranch
    exact accPairs_fst_length _ _
      (fun p _ => processPage_result_length mode dryRun (exceptD tf) env p h)
  · intro ot cfg itemIds mode dryRun env h
    unfold migrateMetafields
    rw [h]
    exact accPairs_fst_length _ _
      (fun i _ => processMfItem_result_length ot cfg.1 mode dryRun env i)
  · intro itemIds src tf env m henv
    unfold productsBranch migrateProducts
    exact accPairs_fst_map _ _ _ _
      (fun p _ => processProduct_fail_error (exceptD tf) env p m henv)

/-- Closed instance of the amended C4 statement. -/
theorem batch_length_preserved_witness :
    (productsBranch ["1"] ConflictMode.skip false [prodMug] (Except.ok [tgtMug]) envOk).1.length =
      ([prodMug].filter (fun p => ["1"].contains (jstr (jsGet p "id")))).length :=
  batch_length_preserved.1 ["1"] ConflictMode.skip false [prodMug] (Except.ok [tgtMug]) envOk
    (Or.inr (Or.inl rfl))

-- --- C10: the two products branches ---

/-- C10 counterexample: under overwrite with dryRun set, on identical
inputs, the older branch leaves its target set empty (its fetch guard is
false) and predicts created for a matched product, while the current
branch predicts updated. -/
theorem products_branches_diverge_cex :
    (productsBranch ["1"] ConflictMode.overwrite true [prodMug]
        (Except.ok [tgtMug]) envOk).1.map Result.status = [Status.updated] ∧
    (productsBranchOld ["1"] ConflictMode.overwrite true [prodMug]
        (Except.ok [tgtMug]) envOk).1.map Result.status = [Status.created] := by
  exact ⟨rfl, rfl⟩

theorem processProduct_old_agree (mode : ConflictMode) (tgt : List JObj)
    (env : PWrite → Option String) (p : JObj) :
    processProduct mode false tgt env p = processProductOld mode false tgt env p := by
  rcases hf : tgt.find? (fun tp => primEq (jsGet tp "handle") (jsGet p "handle")) with _ | ex <;>
    cases mode <;> simp [processProduct, processProductOld, hf]

/-- C10 (amended): the two products branches produce identical results
and writes on every non-dry-run request with the same fetched data and
write outcomes; the divergence is confined to dry runs, where the
dry-run messages differ and, under overwrite, the older branch skips the
target fetch and predicts created for matched items. -/
theorem products_branches_agree_nondry (itemIds : List String) (mode : ConflictMode)
    (dryRun : Bool) (src : List JObj) (tf : Except String (List JObj))
    (env : PWrite → Option String) (h : dryRun = false) :
    productsBranch itemIds mode dryRun src tf env =
      productsBranchOld itemIds mode dryRun src tf env := by
  subst h
  unfold productsBranch productsBranchOld migrateProducts migrateProductsOld
  have htgt : (if mode ≠ ConflictMode.overwrite ∨ (false : Bool) = false
      then exceptD tf else []) = exceptD tf := if_pos (Or.inr rfl)
  rw [htgt]
  dsimp only
  congr 1

/-- Closed instance of the amended C10 statement. -/
theorem products_branches_agree_nondry_witness :
    productsBranch ["1"] ConflictMode.skip false [prodMug] (Except.ok [tgtMug]) envOk =
      productsBranchOld ["1"] ConflictMode.skip false [prodMug] (Except.ok [tgtMug]) envOk :=
  products_branches_agree_nondry ["1"] ConflictMode.skip false [prodMug]
    (Except.ok [tgtMug]) envOk rfl

-- --- Key-set lemmas for the cleaners ---

theorem keysOf_setKey (r : JObj) (k : String) (v : JVal) :
    keysOf (setKey r k v) = keysOf r := by
  simp only [keysOf, setKey, List.map_map]
  apply List.map_congr_left
  intro kv _
  by_cases h : kv.1 = k <;> simp [h]

theorem keysOf_removeKeys_not_mem (ks : List String) (r : JObj) (k : String)
    (hk : ks.contains k = true) : k ∉ keysOf (removeKeys ks r) := by
  intro h
  simp only [keysOf, List.mem_map] at h
  rcases h with ⟨kv, hkv, hfst⟩
  rw [removeKeys, List.mem_filter] at hkv
  rcases hkv with ⟨_, hfilt⟩
  rw [hfst, hk] at hfilt
  simp at hfilt

theorem keysOf_removeKeys_mem (ks : List String) (r : JObj) (k : String)
    (hk : ks.contains k = false) (h : k ∈ keysOf r) : k ∈ keysOf (removeKeys ks r) := by
  simp only [keysOf, List.mem_map] at h ⊢
  rcases h with ⟨kv, hkv, hfst⟩
  refine ⟨kv, ?_, hfst⟩
  rw [removeKeys, List.mem_filter]
  refine ⟨hkv, ?_⟩
  rw [hfst]
  simpa using hk

theorem keysOf_cleanProduct (p : JObj) :
    keysOf (cleanProduct p) =
      keysOf (removeKeys
        ["id", "admin_graphql_api_id", "created_at", "updated_at", "published_at"] p) := by
  unfold cleanProduct
  dsimp only
  repeat' split
  all_goals simp [keysOf_setKey]

theorem keysOf_cleanCollection (c : JObj) :
    keysOf (cleanCollection c) =
      keysOf (removeKeys
        ["id", "admin_graphql_api_id", "created_at", "updated_at", "published_at", "type"] c) := by
  unfold cleanCollection
  dsimp only
  split
  all_goals simp [keysOf_setKey]

theorem keysOf_cleanArticle (a : JObj) :
    keysOf (cleanArticle a) =
      keysOf (removeKeys
        ["id", "admin_graphql_api_id", "created_at", "updated_at", "blog_id", "user_id"] a) := by
  unfold cleanArticle
  dsimp only
  split
  all_goals simp [keysOf_setKey]

-- --- C6: stripped identity fields ---

/-- A concrete article record carrying published_at. -/
def artEx : JObj := [("id", .num 5), ("published_at", .str "2024-01-02"), ("title", .str "Hello")]

/-- A concrete article record carrying published_at and the owner
foreign keys shop_id and product_id. -/
def artFkEx : JObj := [("id", .num 5), ("published_at", .str "2024-01-02"),
  ("shop_id", .num 8), ("product_id", .num 2), ("title", .str "Hello")]

/-- A concrete product record carrying a top-level product_id key. -/
def prodFkEx : JObj := [("id", .num 1), ("product_id", .num 2), ("handle", .str "mug")]

/-- A concrete custom collection as fetched, before the branch tags
it. -/
def colEx : JObj := [("id", .num 4), ("handle", .str "col"), ("title", .str "Col")]

/-- C6 counterexample: cleanArticle does not strip published_at nor the
owner foreign keys shop_id and product_id; cleanProduct does not strip a
top-level product_id; and a collection tagged with its _type sub-type
discriminator, as the collections branch builds it, keeps that
discriminator after cleanCollection (only the key "type" is dropped).
Each part contradicts a clause of the claim. -/
theorem clean_article_keeps_published_at_cex :
    (keysOf (cleanArticle artFkEx)).contains "published_at" = true ∧
    (keysOf (cleanArticle artFkEx)).contains "shop_id" = true ∧
    (keysOf (cleanArticle artFkEx)).contains "product_id" = true ∧
    (keysOf (cleanProduct prodFkEx)).contains "product_id" = true ∧
    (keysOf (cleanCollection (setField colEx "_type" (.str "custom")))).contains "_type"
      = true := by
  exact ⟨rfl, rfl, rfl, rfl, rfl⟩

/-- C6 (amended): each cleaner strips id, admin_graphql_api_id,
created_at and updated_at; cleanProduct, cleanCollection and cleanPage
also strip published_at; cleanPage strips shop_id; cleanCollection also
strips the key "type"; cleanArticle strips blog_id and user_id but
retains published_at and the owner foreign keys shop_id and product_id;
cleanProduct retains a top-level product_id; and cleanCollection retains
the _type sub-type tag that the collections branch adds. -/
theorem cleaners_strip_identity_fields :
    (∀ p k, k ∈ ["id", "admin_graphql_api_id", "created_at", "updated_at", "published_at"] →
      k ∉ keysOf (cleanProduct p)) ∧
    (∀ c k,
      k ∈ ["id", "admin_graphql_api_id", "created_at", "updated_at", "published_at", "type"] →
      k ∉ keysOf (cleanCollection c)) ∧
    (∀ p k,
      k ∈ ["id", "admin_graphql_api_id", "created_at", "updated_at", "published_at", "shop_id"] →
      k ∉ keysOf (cleanPage p)) ∧
    (∀ a k, k ∈ ["id", "admin_graphql_api_id", "created_at", "updated_at", "blog_id", "user_id"] →
      k ∉ keysOf (cleanArticle a)) ∧
    (∀ a, "published_at" ∈ keysOf a → "published_at" ∈ keysOf (cleanArticle a)) ∧
    (∀ c, "_type" ∈ keysOf c → "_type" ∈ keysOf (cleanCollection c)) ∧
    (∀ a, "shop_id" ∈ keysOf a → "shop_id" ∈ keysOf (cleanArticle a)) ∧
    (∀ a, "product_id" ∈ keysOf a → "product_id" ∈ keysOf (cleanArticle a)) ∧
    (∀ p, "product_id" ∈ keysOf p → "product_id" ∈ keysOf (cleanProduct p)) := by
  refine ⟨?_, ?_, ?_, ?_, ?_, ?_, ?_, ?_, ?_⟩
  · intro p k hk
    rw [keysOf_cleanProduct]
    exact keysOf_removeKeys_not_mem _ p k (by simpa using hk)
  · intro c k hk
    rw [keysOf_cleanCollection]
    exact keysOf_removeKeys_not_mem _ c k (by simpa using hk)
  · intro p k hk
    unfold cleanPage
    exact keysOf_removeKeys_not_mem _ p k (by simpa using hk)
  · intro a k hk
    rw [keysOf_cleanArticle]
    exact keysOf_removeKeys_not_mem _ a k (by simpa using hk)
  · intro a h
    rw [keysOf_cleanArticle]
    exact keysOf_removeKeys_mem _ a _ (by decide) h
  · intro c h
    rw [keysOf_cleanCollection]
    exact keysOf_removeKeys_mem _ c _ (by decide) h
  · intro a h
    rw [keysOf_cleanArticle]
    exact keysOf_removeKeys_mem _ a _ (by decide) h
  · intro a h
    rw [keysOf_cleanArticle]
    exact keysOf_removeKeys_mem _ a _ (by decide) h
  · intro p h
    rw [keysOf_cleanProduct]
    exact keysOf_removeKeys_mem _ p _ (by decide) h

/-- Closed instance of the amended C6 statement: the concrete article
record keeps its published_at. -/
theorem cleaners_strip_identity_fields_witness :
    "published_at" ∈ keysOf (cleanArticle artEx) :=
  cleaners_strip_identity_fields.2.2.2.2.1 artEx (by decide)

-- --- C5: definition-before-entries gating for metaobjects ---

/-- The entry type a metaobject write belongs to, when it is an entry
write. -/
def entryTypeOf : MWrite → Option String
  | .defCreate _ _ _ _ => none
  | .entryUpdate t _ _ => some t
  | .entryCreate t _ _ => some t

/-- A failed GraphQL mutation outcome: a non-empty userErrors list or a
throw. -/
def gqlFails : GqlRes → Prop
  | .ok ue => ue ≠ []
  | .thrown _ => True

theorem processEntry_writes_type (d : MDef) (mode : ConflictMode) (dryRun : Bool)
    (tgtEntries : List MEntry) (menv : MWrite → GqlRes) (e : MEntry) :
    ∀ w ∈ (processEntry d mode dryRun tgtEntries menv e).2, entryTypeOf w = some d.type := by
  intro w hw
  unfold processEntry at hw
  dsimp only at hw
  repeat' split at hw
  all_goals simp_all [entryTypeOf]

theorem processDef_writes (tgtDefs : List MDef) (mode : ConflictMode) (dryRun : Bool)
    (srcEntriesOf tgtEntriesOf : String → List MEntry) (menv : MWrite → GqlRes) (d : MDef) :
    ∀ w ∈ (processDef tgtDefs mode dryRun srcEntriesOf tgtEntriesOf menv d).2,
      w = MWrite.defCreate d.type d.name (d.fieldDefinitions.map fieldDefPayload) "PUBLIC_READ" ∨
      entryTypeOf w = some d.type := by
  intro w hw
  have hent : ∀ x ∈ (accPairs ((srcEntriesOf d.type).map
      (processEntry d mode dryRun (tgtEntriesOf d.type) menv))).2, entryTypeOf x = some d.type := by
    intro x hx
    rcases accPairs_snd_mem _ _ x hx with ⟨e, _, hxe⟩
    exact processEntry_writes_type d mode dryRun _ menv e x hxe
  unfold processDef at hw
  dsimp only at hw
  repeat' split at hw
  all_goals try exact Or.inr (hent w hw)
  all_goals rcases List.mem_cons.mp hw with h | h
  all_goals try exact Or.inl (by rw [h])
  all_goals try exact Or.inr (hent w h)
  all_goals exact absurd h (List.not_mem_nil w)

/-- C5: for every selected metaobject definition with no matching target
definition, in a non-dry-run call, a failing definition create
(userErrors or a throw) leaves exactly the one attempted create in the
definition's write segment and one error result: the entry phase for
that definition is not entered, and (with the selected definitions
having pairwise distinct types) the whole migration trace contains no
entry write of that definition's type. -/
theorem metaobject_definition_gate (allDefs : List MDef) (definitionIds : List String)
    (tgtDefs : List MDef) (mode : ConflictMode)
    (srcEntriesOf tgtEntriesOf : String → List MEntry) (menv : MWrite → GqlRes)
    (d : MDef)
    (hmem : d ∈ allDefs.filter (fun d0 => definitionIds.contains d0.id))
    (hnodup : ((allDefs.filter (fun d0 => definitionIds.contains d0.id)).map MDef.type).Nodup)
    (hnt : tgtDefs.find? (fun td => td.type == d.type) = none)
    (hfail : gqlFails (menv (MWrite.defCreate d.type d.name
      (d.fieldDefinitions.map fieldDefPayload) "PUBLIC_READ"))) :
    (processDef tgtDefs mode false srcEntriesOf tgtEntriesOf menv d).2 =
      [MWrite.defCreate d.type d.name (d.fieldDefinitions.map fieldDefPayload) "PUBLIC_READ"] ∧
    (processDef tgtDefs mode false srcEntriesOf tgtEntriesOf menv d).1.map Result.status =
      [Status.error] ∧
    ∀ w ∈ (migrateMetaobjects allDefs definitionIds tgtDefs mode false
        srcEntriesOf tgtEntriesOf menv).2, entryTypeOf w ≠ some d.type := by
  have hseg : (processDef tgtDefs mode false srcEntriesOf tgtEntriesOf menv d).2 =
      [MWrite.defCreate d.type d.name (d.fieldDefinitions.map fieldDefPayload) "PUBLIC_READ"] ∧
      (processDef tgtDefs mode false srcEntriesOf tgtEntriesOf menv d).1.map Result.status =
        [Status.error] := by
    unfold processDef
    rw [hnt]
    dsimp only
    rcases hm : menv (MWrite.defCreate d.type d.name
        (d.fieldDefinitions.map fieldDefPayload) "PUBLIC_READ") with ue | m
    · rw [hm] at hfail
      rw [gqlFails] at hfail
      have hlen : ue.length > 0 := by
        cases ue
        · exact absurd rfl hfail
        · simp
      simp [hlen]
    · simp
  refine ⟨hseg.1, hseg.2, ?_⟩
  intro w hw hwt
  unfold migrateMetaobjects at hw
  dsimp only at hw
  rcases accPairs_snd_mem _ _ w hw with ⟨d2, hd2, hwd2⟩
  have heq : d2 = d := by
    rcases processDef_writes tgtDefs mode false srcEntriesOf tgtEntriesOf menv d2 w hwd2 with
      h | h
    · rw [h] at hwt
      simp [entryTypeOf] at hwt
    · have : d2.type = d.type := by
        rw [h] at hwt
        exact Option.some.inj hwt
      exact List.inj_on_of_nodup_map hnodup hd2 hmem this
  rw [heq] at hwd2
  rw [hseg.1] at hwd2
  rcases List.mem_singleton.mp hwd2 with rfl
  simp [entryTypeOf] at hwt

/-- A concrete metaobject definition, entry and failing create oracle. -/
def mdefEx : MDef := ⟨"d1", "Fact", "fact", []⟩

/-- A concrete metaobject entry of that type. -/
def mentryEx : MEntry := ⟨"e1", "h1", "fact", []⟩

/-- A GraphQL oracle on which every definition create reports a user
error and everything else succeeds. -/
def menvFailDef : MWrite → GqlRes := fun w =>
  match w with
  | .defCreate _ _ _ _ => .ok ["boom"]
  | _ => .ok []

/-- Closed instance of the C5 statement at a concrete failing
definition create. -/
theorem metaobject_definition_gate_witness :
    (processDef [] ConflictMode.overwrite false (fun _ => [mentryEx]) (fun _ => [])
        menvFailDef mdefEx).1.map Result.status = [Status.error] :=
  (metaobject_definition_gate [mdefEx] ["d1"] [] ConflictMode.overwrite
    (fun _ => [mentryEx]) (fun _ => []) menvFailDef mdefEx
    (List.mem_singleton.mpr rfl) (List.nodup_singleton "fact") rfl
    (by simp [menvFailDef, gqlFails])).2.1

-- --- C7: articles are always created ---

theorem blogArticlesPhase_ok (idStr : String) (titleV : JVal) (env : BlogEnv)
    (tid : JVal) (rs : List Result) (ws : List BWrite) (as : List JObj)
    (htr : jtruthy tid = true)
    (harts : env.articlesOf idStr = .ok as)
    (hposts : ∀ a ∈ as, env.postArticle (jstr tid)
      (JVal.obj [("article", .obj (cleanArticle a))]) = none) :
    blogArticlesPhase idStr titleV env tid rs ws =
      (rs ++ as.map (fun a => ⟨jstr (jsGet a "id"),
         .str ("Artikel: " ++ jstr (jsGet a "title")), Status.created, none⟩),
       ws ++ as.map (fun a => BWrite.postArticle (jstr tid)
         (JVal.obj [("article", .obj (cleanArticle a))]))) := by
  have hstep : ∀ a ∈ as, articleStep env (jstr tid) a =
      (⟨jstr (jsGet a "id"), .str ("Artikel: " ++ jstr (jsGet a "title")),
        Status.created, none⟩,
       BWrite.postArticle (jstr tid) (JVal.obj [("article", .obj (cleanArticle a))])) := by
    intro a ha
    unfold articleStep
    dsimp only
    rw [hposts a ha]
  unfold blogArticlesPhase
  rw [htr, harts]
  simp only [if_pos, Prod.mk.injEq]
  constructor
  · congr 1
    apply List.map_congr_left
    intro a ha
    rw [hstep a ha]
  · congr 1
    apply List.map_congr_left
    intro a ha
    rw [hstep a ha]

/-- C7: in a non-dry-run blog migration, once the owning blog is matched
(any non-skip mode) or created with a truthy id, every source article is
POSTed to the target blog and recorded created, with no matching or
skipping applied to articles — so re-running the migration re-creates
every article.  Stated for both the matched and the created blog. -/
theorem blog_articles_always_created :
    (∀ (mode : ConflictMode) (tgtBlogs : List JObj) (env : BlogEnv) (blog tb : JObj)
      (as : List JObj),
      tgtBlogs.find? (fun tb2 => primEq (jsGet tb2 "handle") (jsGet blog "handle")) = some tb →
      mode ≠ ConflictMode.skip →
      jtruthy (jsGet tb "id") = true →
      env.articlesOf (jstr (jsGet blog "id")) = .ok as →
      (∀ a ∈ as, env.postArticle (jstr (jsGet tb "id"))
        (JVal.obj [("article", .obj (cleanArticle a))]) = none) →
      processBlog mode false tgtBlogs env blog =
        (⟨jstr (jsGet blog "id"),
           (if jtruthy (jsGet blog "title") then jsGet blog "title"
            else .str (jstr (jsGet blog "id"))), Status.updated, none⟩ ::
          as.map (fun a => ⟨jstr (jsGet a "id"),
            .str ("Artikel: " ++ jstr (jsGet a "title")), Status.created, none⟩),
         as.map (fun a => BWrite.postArticle (jstr (jsGet tb "id"))
           (JVal.obj [("article", .obj (cleanArticle a))])))) ∧
    (∀ (mode : ConflictMode) (tgtBlogs : List JObj) (env : BlogEnv) (blog : JObj)
      (res : JVal) (as : List JObj),
      tgtBlogs.find? (fun tb2 => primEq (jsGet tb2 "handle") (jsGet blog "handle")) = none →
      env.createBlog (JVal.obj [("blog", .obj
        [("title", jsGet blog "title"), ("handle", jsGet blog "handle"),
         ("commentable", jsGet blog "commentable")])]) = .ok res →
      jtruthy (jget (jget res "blog") "id") = true →
      env.articlesOf (jstr (jsGet blog "id")) = .ok as →
      (∀ a ∈ as, env.postArticle (jstr (jget (jget res "blog") "id"))
        (JVal.obj [("article", .obj (cleanArticle a))]) = none) →
      processBlog mode false tgtBlogs env blog =
        (⟨jstr (jsGet blog "id"),
           (if jtruthy (jsGet blog "title") then jsGet blog "title"
            else .str (jstr (jsGet blog "id"))), Status.created, none⟩ ::
          as.map (fun a => ⟨jstr (jsGet a "id"),
            .str ("Artikel: " ++ jstr (jsGet a "title")), Status.created, none⟩),
         BWrite.postBlog (JVal.obj [("blog", .obj
           [("title", jsGet blog "title"), ("handle", jsGet blog "handle"),
            ("commentable", jsGet blog "commentable")])]) ::
          as.map (fun a => BWrite.postArticle (jstr (jget (jget res "blog") "id"))
            (JVal.obj [("article", .obj (cleanArticle a))])))) := by
  constructor
  · intro mode tgtBlogs env blog tb as hfind hmode htr harts hposts
    have hphase := blogArticlesPhase_ok (jstr (jsGet blog "id"))
      (if jtruthy (jsGet blog "title") then jsGet blog "title"
       else .str (jstr (jsGet blog "id")))
      env (jsGet tb "id")
      [⟨jstr (jsGet blog "id"),
        (if jtruthy (jsGet blog "title") then jsGet blog "title"
         else .str (jstr (jsGet blog "id"))), Status.updated, none⟩] [] as htr harts hposts
    simp [processBlog, hfind, hmode, hphase]
  · intro mode tgtBlogs env blog res as hfind hcreate htr harts hposts
    have hphase := blogArticlesPhase_ok (jstr (jsGet blog "id"))
      (if jtruthy (jsGet blog "title") then jsGet blog "title"
       else .str (jstr (jsGet blog "id")))
      env (jget (jget res "blog") "id")
      [⟨jstr (jsGet blog "id"),
        (if jtruthy (jsGet blog "title") then jsGet blog "title"
         else .str (jstr (jsGet blog "id"))), Status.created, none⟩]
      [BWrite.postBlog (JVal.obj [("blog", .obj
        [("title", jsGet blog "title"), ("handle", jsGet blog "handle"),
         ("commentable", jsGet blog "commentable")])])] as htr harts hposts
    simp [processBlog, hfind, hcreate, hphase]

/-- A concrete source blog, matching target blog, source article and a
blog environment on which all remote calls succeed. -/
def blogEx : JObj := [("id", .num 3), ("handle", .str "news"), ("title", .str "News"),
  ("commentable", .str "no")]

/-- The matching target blog. -/
def tgtBlogEx : JObj := [("id", .num 7), ("handle", .str "news"), ("title", .str "News")]

/-- One source article of that blog. -/
def articleEx : JObj := [("id", .num 21), ("title", .str "Post"), ("blog_id", .num 3)]

/-- A blog environment on which all remote calls succeed. -/
def blogEnvOk : BlogEnv :=
  { createBlog := fun _ => .ok (.obj [("blog", .obj [("id", .num 7)])])
    articlesOf := fun _ => .ok [articleEx]
    postArticle := fun _ _ => none }

/-- Closed instance of the C7 statement at a concrete matched blog with
one article. -/
theorem blog_articles_always_created_witness :
    processBlog ConflictMode.overwrite false [tgtBlogEx] blogEnvOk blogEx =
      (⟨jstr (jsGet blogEx "id"),
         (if jtruthy (jsGet blogEx "title") then jsGet blogEx "title"
          else .str (jstr (jsGet blogEx "id"))), Status.updated, none⟩ ::
        [articleEx].map (fun a => ⟨jstr (jsGet a "id"),
          .str ("Artikel: " ++ jstr (jsGet a "title")), Status.created, none⟩),
       [articleEx].map (fun a => BWrite.postArticle (jstr (jsGet tgtBlogEx "id"))
         (JVal.obj [("article", .obj (cleanArticle a))]))) :=
  blog_articles_always_created.1 ConflictMode.overwrite [tgtBlogEx] blogEnvOk blogEx tgtBlogEx
    [articleEx] rfl (by decide) rfl rfl (fun a _ => rfl)

-- --- C8: metafields are never created as orphans ---

/-- C8: for a metafield item whose source owner has a handle but whose
handle resolves to no target owner (the filtered query returns an empty
list, or it throws and the full-fetch fallback has no handle match), the
item's result is an error naming the missing target resource, under
every conflict mode and both dry-run settings, and no metafield write is
issued for the item. -/
theorem metafield_orphan_guard (ownerType restResource : String) (mode : ConflictMode)
    (dryRun : Bool) (env : MfEnv) (itemId : String) (mfs : List MF) (r : SrcRes)
    (hmf : env.srcMetafields itemId = .ok mfs) (hne : mfs.length ≠ 0)
    (hitem : env.srcItem itemId = .ok (some r)) (hh : r.handle ≠ "")
    (hres : env.tgtByHandle r.handle = .ok [] ∨
      (∃ m arr, env.tgtByHandle r.handle = .error m ∧ env.tgtAll = .ok arr ∧
        arr.find? (fun t => primEq (jsGet t "handle") (.str r.handle)) = none)) :
    processMfItem ownerType restResource mode dryRun env itemId =
      ([⟨itemId,
         .str ("Metafelder (" ++ jsOr r.title (jsOr r.name (jsOr r.handle itemId)) ++ ")"),
         Status.error, some "Ziel-Ressource nicht gefunden"⟩], []) := by
  rcases hres with hq | ⟨m, arr, hq, hall, hfind⟩
  · simp [processMfItem, hmf, hne, hitem, hh, hq]
  · simp [processMfItem, hmf, hne, hitem, hh, hq, hall, hfind]

/-- A concrete source metafield. -/
def mfEx : MF := ⟨.num 11, "custom", "color", .str "red", .str "single_line_text_field"⟩

/-- A concrete source owner with handle mug. -/
def srcResEx : SrcRes := ⟨"mug", "Mug", ""⟩

/-- A metafield environment whose target has no owner with that
handle. -/
def mfEnvNoTarget : MfEnv :=
  { srcMetafields := fun _ => .ok [mfEx]
    srcItem := fun _ => .ok (some srcResEx)
    tgtByHandle := fun _ => .ok []
    tgtAll := .ok []
    tgtMetafields := fun _ => .ok []
    write := fun _ => none }

/-- Closed instance of the C8 statement at a concrete unresolvable
owner. -/
theorem metafield_orphan_guard_witness :
    processMfItem "products" "products" ConflictMode.skip false mfEnvNoTarget "1" =
      ([⟨"1",
         .str ("Metafelder (" ++ jsOr srcResEx.title (jsOr srcResEx.name
           (jsOr srcResEx.handle "1")) ++ ")"),
         Status.error, some "Ziel-Ressource nicht gefunden"⟩], []) :=
  metafield_orphan_guard "products" "products" ConflictMode.skip false mfEnvNoTarget "1"
    [mfEx] srcResEx rfl (by decide) rfl (by decide) (Or.inl rfl)

/-- C4 counterexample: a products request over one matched source item
under conflictMode ask in a non-dry run yields zero results although one
item is selected from the source fetch; and a blogs request over one
matched blog with one article yields two results for one selected item.
Both refute the one-result-per-item claim for every migration call. -/
theorem ask_shrinks_batch_cex :
    (productsBranch ["1"] ConflictMode.ask false [prodMug] (Except.ok [tgtMug]) envOk).1.length = 0 ∧
    ([prodMug].filter (fun p => ["1"].contains (jstr (jsGet p "id")))).length = 1 ∧
    (blogsBranch ["3"] ConflictMode.overwrite false [blogEx]
      (Except.ok [tgtBlogEx]) blogEnvOk).1.length = 2 ∧
    ([blogEx].filter (fun b => ["3"].contains (jstr (jsGet b "id")))).length = 1 := by
  exact ⟨rfl, rfl, rfl, rfl⟩
